import Mathlib

/-!
Verification of the job-orchestration and document-segmentation core of the
invoicextractorai repository against its natural-language specification.

The Python sources are shallowly embedded:
* `app/services/job_registry.py` — job data model, registry mutators, pub/sub;
* `app/services/processor.py` / `receipt_processor.py` — pipeline orchestrators;
* `app/services/mongodb_persistence.py` / `receipt_persistence.py` — content hashes;
* `app/services/segmented_receipt_extractor.py` — anchor resolution, deterministic
  COFINS skeleton, batch validation.

Python strings are modelled as `List Char` (Python indexes strings by code
points, matching list indices).  Wall-clock times (`datetime.now()`) are
modelled as `Nat` values passed explicitly to the mutators that read the clock.
-/

set_option autoImplicit false

namespace InvoiceExtractor

/-- Job lifecycle states from `JobStatus` in `job_registry.py`.
`PASSWORD_REQUIRED` is referenced by `processor.py` and `api/upload.py` but the
enum member itself is absent from the copy of `job_registry.py` under `src/`.
Modelled from the spec: §4.2 lists PASSWORD_REQUIRED as a non-terminal,
re-entrant state of the pipeline state machine. -/
inductive JobStatus where
  | WAITING
  | PROCESSING
  | COMPLETED
  | ERROR
  | CANCELLED
  | PASSWORD_REQUIRED
  deriving DecidableEq, Repr

/-- The `Job` dataclass of `job_registry.py`.  `pdf_content` keeps only
presence/absence and an abstract payload string; `created_at`/`finished_at`
are abstract clock readings. -/
structure Job where
  id : List Char
  filename : List Char
  provider : List Char
  model_name : Option (List Char) := none
  status : JobStatus := .WAITING
  progress : Nat := 0
  created_at : Nat := 0
  finished_at : Option Nat := none
  error_message : Option (List Char) := none
  excel_path : Option (List Char) := none
  pdf_content : Option (List Char) := none
  cancelled : Bool := false
  extracted_text : Option (List Char) := none
  llm_prompt : Option (List Char) := none
  deriving DecidableEq, Repr

/-- Per-job effect of `JobRegistry.update_job_status` (lines 155-164):
sets `status` unconditionally and `progress` when one is supplied. -/
def update_job_status_core (j : Job) (status : JobStatus) (progress : Option Nat) : Job :=
  { j with
    status := status
    progress := match progress with
      | some p => p
      | none => j.progress }

/-- Per-job effect of `JobRegistry.update_job_progress` (lines 166-173). -/
def update_job_progress_core (j : Job) (progress : Nat) : Job :=
  { j with progress := progress }

/-- Per-job effect of `JobRegistry.set_job_details` (lines 175-183). -/
def set_job_details_core (j : Job) (extracted_text llm_prompt : List Char) : Job :=
  { j with extracted_text := some extracted_text, llm_prompt := some llm_prompt }

/-- Per-job effect of `JobRegistry.set_job_error` (lines 185-194):
status ERROR, error message recorded, `finished_at` stamped with the clock. -/
def set_job_error_core (j : Job) (error_message : List Char) (now : Nat) : Job :=
  { j with
    status := .ERROR
    error_message := some error_message
    finished_at := some now }

/-- Per-job effect of `JobRegistry.set_job_completed` (lines 196-207):
status COMPLETED, progress 100, artifact path set, owned input released,
`finished_at` stamped with the clock. -/
def set_job_completed_core (j : Job) (excel_path : List Char) (now : Nat) : Job :=
  { j with
    status := .COMPLETED
    progress := 100
    excel_path := some excel_path
    pdf_content := none
    finished_at := some now }

/-- Per-job effect of the guarded branch of `JobRegistry.cancel_job`
(lines 213-216): flag set, status CANCELLED, owned input released.
Note the source does not touch `finished_at` here. -/
def cancel_job_core (j : Job) : Job :=
  { j with
    cancelled := true
    status := .CANCELLED
    pdf_content := none }

/-- Modelled from the spec: `setPasswordRequired(id, message)` (§4.1) is called
by `processor.py` but missing from the registry under `src/`.  It moves the job
to the non-terminal PASSWORD_REQUIRED state and surfaces the message; being
non-terminal it does not stamp `finished_at`. -/
def set_job_password_required_core (j : Job) (message : List Char) : Job :=
  { j with
    status := .PASSWORD_REQUIRED
    error_message := some message }

/-- Modelled from the spec: `resetForRetry(id)` (§4.1) is called by
`processor.py` but missing from the registry under `src/`.  It clears the
terminal-adjacent fields and re-enters PROCESSING, replaying all stages. -/
def reset_job_for_retry_core (j : Job) : Job :=
  { j with
    status := .PROCESSING
    progress := 0
    error_message := none
    finished_at := none }

/-- The registry job map, keyed by job id (`JobRegistry._jobs`). -/
abbrev Registry := List (List Char × Job)

/-- Lookup of `JobRegistry.get_job`. -/
def get_job (reg : Registry) (job_id : List Char) : Option Job :=
  (reg.find? (fun p => p.1 = job_id)).map Prod.snd

/-- In-place mutation of one job under the registry lock: every mutator of
`JobRegistry` fetches `self._jobs.get(job_id)` and, when present, mutates that
object in place.  Absent ids leave the map unchanged. -/
def modifyJob (reg : Registry) (job_id : List Char) (f : Job → Job) : Registry :=
  reg.map (fun p => if p.1 = job_id then (p.1, f p.2) else p)

/-- `JobRegistry.create_job` (lines 127-140).  The uuid-derived id is an input
of the model (the source draws it from `uuid.uuid4()`). -/
def create_job (reg : Registry) (job_id filename provider model_name pdf_content : List Char)
    (now : Nat) : Registry :=
  reg ++ [(job_id,
    { id := job_id
      filename := filename
      provider := provider
      model_name := some model_name
      pdf_content := some pdf_content
      created_at := now })]

/-- Registry-level `update_job_status`. -/
def update_job_status (reg : Registry) (job_id : List Char) (status : JobStatus)
    (progress : Option Nat) : Registry :=
  modifyJob reg job_id (fun j => update_job_status_core j status progress)

/-- Registry-level `update_job_progress`. -/
def update_job_progress (reg : Registry) (job_id : List Char) (progress : Nat) : Registry :=
  modifyJob reg job_id (fun j => update_job_progress_core j progress)

/-- Registry-level `set_job_details`. -/
def set_job_details (reg : Registry) (job_id extracted_text llm_prompt : List Char) : Registry :=
  modifyJob reg job_id (fun j => set_job_details_core j extracted_text llm_prompt)

/-- Registry-level `set_job_error`. -/
def set_job_error (reg : Registry) (job_id error_message : List Char) (now : Nat) : Registry :=
  modifyJob reg job_id (fun j => set_job_error_core j error_message now)

/-- Registry-level `set_job_completed`. -/
def set_job_completed (reg : Registry) (job_id excel_path : List Char) (now : Nat) : Registry :=
  modifyJob reg job_id (fun j => set_job_completed_core j excel_path now)

/-- `JobRegistry.cancel_job` (lines 209-220).  The guard mutates only jobs in
WAITING or PROCESSING; the return value re-reads `job.cancelled` after the
guarded block, so it is the cancelled flag of the (possibly mutated) job. -/
def cancel_job (reg : Registry) (job_id : List Char) : Registry × Bool :=
  match get_job reg job_id with
  | none => (reg, false)
  | some job =>
    if job.status = .WAITING ∨ job.status = .PROCESSING then
      (modifyJob reg job_id cancel_job_core, true)
    else
      (reg, job.cancelled)

/-- `JobRegistry.is_job_cancelled` (lines 222-225). -/
def is_job_cancelled (reg : Registry) (job_id : List Char) : Bool :=
  match get_job reg job_id with
  | none => false
  | some job => job.cancelled

/-!
### Pipeline orchestrator (`processor.py`, `receipt_processor.py`)

The orchestrators run as coroutines on the asyncio event loop; the cancel
endpoint (`api/upload.py`, an `async def` on the same loop) can therefore only
interleave with an orchestrator at its `await` points.  The model makes each
such suspension point an explicit `CancelPoint`; the cancel request, when it
fires there, has the effect of `JobRegistry.cancel_job` on this job.  External
stage results are enumerated outcomes.  The orchestrator only ever touches its
own job, so the model tracks that single job's state.
-/

/-- Outcome of the text-extraction stage (`extract_text_from_pdf`). -/
inductive ExtractOutcome where
  | ok
  | passwordRequired
  | passwordIncorrect
  | extractionError
  deriving DecidableEq, Repr

/-- Outcome of the structured-extraction stage (`extract_expenses` or the
receipt extraction call). -/
inductive ExpensesOutcome where
  | ok
  | extractionError
  deriving DecidableEq, Repr

/-- Outcome of artifact generation and writing (`generate_excel` plus the
temp-file write, lines 161-178 of `processor.py`). -/
inductive ExcelOutcome where
  | ok
  | failure
  deriving DecidableEq, Repr

/-- The points of `process_job` at which a cancel request can interleave:
before the task's first step, or during one of its `await`ed stage calls. -/
inductive CancelPoint where
  | beforeStart
  | duringExtract
  | duringIdentify
  | duringExpenses
  | duringPersist
  | duringExcelGen
  | duringWrite
  | never
  deriving DecidableEq, Repr

/-- Effect of `cancel_job` on this job (the guarded block of lines 213-216). -/
def applyCancel (j : Job) : Job :=
  if j.status = .WAITING ∨ j.status = .PROCESSING then cancel_job_core j else j

/-- Fire the cancel request on the job when the run passes cancel point
`here` and the request is scheduled at `cp`. -/
def cancelAt (cp here : CancelPoint) (j : Job) : Job :=
  if cp = here then applyCancel j else j

/-- `process_job` of `processor.py` (lines 72-184), for a job present in the
registry.  `pwmsg` stands for `str(e)` of the password exceptions;
`combined` and `llm` for the redacted text and prompt recorded via
`set_job_details`; `excel_path` for the generated artifact path. -/
def process_job (j : Job) (cp : CancelPoint) (oExtract : ExtractOutcome)
    (oExpenses : ExpensesOutcome) (oExcel : ExcelOutcome)
    (pwmsg combined llm excel_path : List Char) (now : Nat) : Job :=
  let j := cancelAt cp .beforeStart j
  if j.pdf_content = none then
    set_job_error_core j ("Job not found or PDF content missing".data) now
  else if j.cancelled then j
  else
    let j := update_job_status_core j .PROCESSING (some 0)
    let j := cancelAt cp .duringExtract j
    match oExtract with
    | .passwordRequired =>
        if !j.cancelled then set_job_password_required_core j pwmsg else j
    | .passwordIncorrect =>
        if !j.cancelled then set_job_password_required_core j pwmsg else j
    | .extractionError =>
        -- the inner handler records the error and re-raises (line 101); the
        -- outer handler (lines 179-184) then records the wrapped message
        if !j.cancelled then
          let j := set_job_error_core j ("PDF extraction failed".data) now
          if !j.cancelled then
            set_job_error_core j ("Processing failed: PDF extraction failed".data) now
          else j
        else j
    | .ok =>
      if j.cancelled then j
      else
        let j := update_job_progress_core j 20
        -- redaction and page combination (lines 110-113) are pure
        if j.cancelled then j
        else
          let j := update_job_progress_core j 30
          let j := cancelAt cp .duringIdentify j
          -- identify_bank failures degrade to an Unknown issuer (lines 120-123)
          if j.cancelled then j
          else
            let j := set_job_details_core j combined llm
            let j := update_job_progress_core j 50
            let j := cancelAt cp .duringExpenses j
            match oExpenses with
            | .extractionError =>
                if !j.cancelled then
                  set_job_error_core j ("LLM extraction failed".data) now
                else j
            | .ok =>
              if j.cancelled then j
              else
                let j := update_job_progress_core j 80
                if j.cancelled then j
                else
                  let j := cancelAt cp .duringPersist j
                  -- the persistence result is ignored (lines 152-159)
                  let j := cancelAt cp .duringExcelGen j
                  match oExcel with
                  | .failure =>
                      if !j.cancelled then
                        set_job_error_core j ("Excel generation failed".data) now
                      else j
                  | .ok =>
                    let j := cancelAt cp .duringWrite j
                    if !j.cancelled then set_job_completed_core j excel_path now else j

/-- `process_job_with_password` of `processor.py` (lines 303-414): validates
that the job is password-pending, calls `reset_job_for_retry`, then replays
the full pipeline with the supplied password. -/
def process_job_with_password (j : Job) (cp : CancelPoint) (oExtract : ExtractOutcome)
    (oExpenses : ExpensesOutcome) (oExcel : ExcelOutcome)
    (pwmsg combined llm excel_path : List Char) (now : Nat) : Job :=
  let j := cancelAt cp .beforeStart j
  if j.pdf_content = none then
    set_job_error_core j ("Job not found or PDF content missing".data) now
  else if j.status ≠ .PASSWORD_REQUIRED then
    set_job_error_core j ("Job is not waiting for password".data) now
  else
    let j := reset_job_for_retry_core j
    let j := cancelAt cp .duringExtract j
    match oExtract with
    | .passwordRequired =>
        if !j.cancelled then set_job_password_required_core j pwmsg else j
    | .passwordIncorrect =>
        if !j.cancelled then set_job_password_required_core j pwmsg else j
    | .extractionError =>
        if !j.cancelled then set_job_error_core j ("PDF extraction failed".data) now else j
    | .ok =>
      if j.cancelled then j
      else
        let j := update_job_progress_core j 20
        if j.cancelled then j
        else
          let j := update_job_progress_core j 30
          let j := cancelAt cp .duringIdentify j
          if j.cancelled then j
          else
            let j := set_job_details_core j combined llm
            let j := update_job_progress_core j 50
            let j := cancelAt cp .duringExpenses j
            match oExpenses with
            | .extractionError =>
                if !j.cancelled then
                  set_job_error_core j ("LLM extraction failed".data) now
                else j
            | .ok =>
              if j.cancelled then j
              else
                let j := update_job_progress_core j 80
                if j.cancelled then j
                else
                  let j := cancelAt cp .duringPersist j
                  let j := cancelAt cp .duringExcelGen j
                  match oExcel with
                  | .failure =>
                      if !j.cancelled then
                        set_job_error_core j ("Excel generation failed".data) now
                      else j
                  | .ok =>
                    let j := cancelAt cp .duringWrite j
                    if !j.cancelled then set_job_completed_core j excel_path now else j

/-- The suspension points of `process_receipt_job`. -/
inductive RCancelPoint where
  | beforeStart
  | duringExtraction
  | duringPersist
  | duringExcelGen
  | duringWrite
  | never
  deriving DecidableEq, Repr

/-- Fire the cancel request at a receipt-pipeline suspension point. -/
def rcancelAt (cp here : RCancelPoint) (j : Job) : Job :=
  if cp = here then applyCancel j else j

/-- `process_receipt_job` of `receipt_processor.py` (lines 26-121), for a job
present in the registry. -/
def process_receipt_job (j : Job) (cp : RCancelPoint) (oExtract : ExpensesOutcome)
    (oExcel : ExcelOutcome) (llm excel_path : List Char) (now : Nat) : Job :=
  let j := rcancelAt cp .beforeStart j
  if j.extracted_text = none then
    set_job_error_core j ("Job not found or receipt text content missing".data) now
  else if j.cancelled then j
  else
    let j := update_job_status_core j .PROCESSING (some 0)
    if j.cancelled then j
    else
      let j := update_job_progress_core j 20
      let j := set_job_details_core j (j.extracted_text.getD []) llm
      let j := update_job_progress_core j 30
      let j := rcancelAt cp .duringExtraction j
      match oExtract with
      | .extractionError =>
          if !j.cancelled then set_job_error_core j ("LLM extraction failed".data) now else j
      | .ok =>
        if j.cancelled then j
        else
          let j := update_job_progress_core j 70
          if j.cancelled then j
          else
            let j := rcancelAt cp .duringPersist j
            -- progress 85 follows the persist call with no cancellation check
            let j := update_job_progress_core j 85
            let j := rcancelAt cp .duringExcelGen j
            match oExcel with
            | .failure =>
                if !j.cancelled then
                  set_job_error_core j ("Excel generation failed".data) now
                else j
            | .ok =>
              let j := rcancelAt cp .duringWrite j
              if !j.cancelled then set_job_completed_core j excel_path now else j

/-- The job as `create_job` builds it: WAITING, progress 0, owned PDF bytes. -/
def fresh_pdf_job (job_id filename provider model pdf : List Char) (now : Nat) : Job :=
  { id := job_id
    filename := filename
    provider := provider
    model_name := some model
    pdf_content := some pdf
    created_at := now }

/-- Modelled from the spec: `create_job_from_text` is called by
`api/extraction.py` but missing from the registry under `src/`; per §4.1 the
created job is WAITING with progress 0 and owns its raw text input. -/
def fresh_text_job (job_id provider model text : List Char) (now : Nat) : Job :=
  { id := job_id
    filename := []
    provider := provider
    model_name := some model
    extracted_text := some text
    created_at := now }

/-- A status the spec calls terminal. -/
def terminalStatus (s : JobStatus) : Prop :=
  s = .COMPLETED ∨ s = .ERROR ∨ s = .CANCELLED

instance (s : JobStatus) : Decidable (terminalStatus s) := by
  unfold terminalStatus
  infer_instance

/-- Looking a job up after an in-place mutation of that id. -/
theorem get_job_modifyJob (reg : Registry) (job_id : List Char) (f : Job → Job) :
    get_job (modifyJob reg job_id f) job_id = (get_job reg job_id).map f := by
  induction reg with
  | nil => rfl
  | cons p rest ih =>
    by_cases h : p.1 = job_id
    · simp [get_job, modifyJob, List.find?_cons, h]
    · simp only [get_job, modifyJob, List.map_cons, List.find?_cons, if_neg h, h,
        decide_eq_true_eq, if_false]
      simpa [get_job, modifyJob] using ih

/-- A sample registry holding one job driven to COMPLETED, used by the
concrete instances below. -/
def completedRegistryExample : Registry :=
  set_job_completed
    (create_job [] ("j1".data) ("f.pdf".data) ("online".data) ("gpt-4o-mini".data)
      ("PDF".data) 0)
    ("j1".data) ("out.xlsx".data) 5

/-- The job stored in `completedRegistryExample`. -/
def completedJobExample : Job :=
  { id := "j1".data
    filename := "f.pdf".data
    provider := "online".data
    model_name := some ("gpt-4o-mini".data)
    status := .COMPLETED
    progress := 100
    created_at := 0
    finished_at := some 5
    excel_path := some ("out.xlsx".data)
    pdf_content := none }

/-- C1.  The claim asserts the terminal-state invariant for all five registry
mutators; the code enforces a status guard only in `cancel_job`, so the claim
fails: `update_job_status` (and likewise `update_job_progress`,
`set_job_error`, `set_job_completed`) mutates a COMPLETED job.  Concretely,
after create plus `set_job_completed`, a subsequent `update_job_status`
moves the job from COMPLETED back to PROCESSING and rewrites its progress. -/
theorem C1_counterexample :
    (get_job
      (set_job_completed
        (create_job [] ("j1".data) ("f.pdf".data) ("online".data) ("gpt-4o-mini".data)
          ("PDF".data) 0)
        ("j1".data) ("out.xlsx".data) 5)
      ("j1".data)).map Job.status = some .COMPLETED ∧
    (get_job
      (update_job_status
        (set_job_completed
          (create_job [] ("j1".data) ("f.pdf".data) ("online".data) ("gpt-4o-mini".data)
            ("PDF".data) 0)
          ("j1".data) ("out.xlsx".data) 5)
        ("j1".data) .PROCESSING (some 10))
      ("j1".data)).map Job.status = some .PROCESSING ∧
    (get_job
      (update_job_status
        (set_job_completed
          (create_job [] ("j1".data) ("f.pdf".data) ("online".data) ("gpt-4o-mini".data)
            ("PDF".data) 0)
          ("j1".data) ("out.xlsx".data) 5)
        ("j1".data) .PROCESSING (some 10))
      ("j1".data)).map Job.progress = some 10 := by
  decide

/-- C1 (amended).  Of the listed registry mutators only `cancel_job` respects
terminal states: invoked on a job whose status is COMPLETED, ERROR or
CANCELLED it leaves the whole registry unchanged (in particular that job's
status, progress and finished_at), while the other four mutators mutate a
terminal job whenever they are invoked on it. -/
theorem C1_cancel_job_preserves_terminal (reg : Registry) (job_id : List Char) (j : Job)
    (hget : get_job reg job_id = some j) (hterm : terminalStatus j.status) :
    (cancel_job reg job_id).1 = reg := by
  have hW : j.status ≠ .WAITING := by
    rcases hterm with h | h | h <;> simp [h]
  have hP : j.status ≠ .PROCESSING := by
    rcases hterm with h | h | h <;> simp [h]
  simp [cancel_job, hget, hW, hP]

/-- C1 witness: a COMPLETED job is left untouched by `cancel_job`. -/
theorem C1_cancel_job_preserves_terminal_witness :
    (get_job completedRegistryExample ("j1".data) = some completedJobExample ∧
      terminalStatus completedJobExample.status) ∧
    (cancel_job completedRegistryExample ("j1".data)).1 = completedRegistryExample :=
  ⟨⟨by decide, by decide⟩,
   C1_cancel_job_preserves_terminal completedRegistryExample ("j1".data)
     completedJobExample (by decide) (by decide)⟩

/-- C2.  The claim fails for a job cancelled before the orchestrator task runs
its first step: `cancel_job` clears `pdf_content`, so `process_job` takes the
unguarded input-validation branch (line 79 of `processor.py`, which precedes
the first `is_job_cancelled` check) and overwrites CANCELLED with ERROR,
setting an error message on the cancelled job. -/
theorem C2_counterexample :
    (process_job (fresh_pdf_job ("j1".data) ("f.pdf".data) ("online".data)
        ("gpt-4o-mini".data) ("PDF".data) 0)
      .beforeStart .ok .ok .ok ("pw".data) ("text".data) ("prompt".data)
      ("out.xlsx".data) 1).cancelled = true ∧
    (process_job (fresh_pdf_job ("j1".data) ("f.pdf".data) ("online".data)
        ("gpt-4o-mini".data) ("PDF".data) 0)
      .beforeStart .ok .ok .ok ("pw".data) ("text".data) ("prompt".data)
      ("out.xlsx".data) 1).status = .ERROR ∧
    (process_job (fresh_pdf_job ("j1".data) ("f.pdf".data) ("online".data)
        ("gpt-4o-mini".data) ("PDF".data) 0)
      .beforeStart .ok .ok .ok ("pw".data) ("text".data) ("prompt".data)
      ("out.xlsx".data) 1).error_message
      = some ("Job not found or PDF content missing".data) := by
  decide

/-- C2 (amended).  Provided cancellation lands after the orchestrator task has
started (at any of its await points), a cancelled job is never overwritten:
for every such cancel point and all stage outcomes, the final status is
CANCELLED, error_message stays unset and no excel path is ever set, for both
`process_job` and `process_receipt_job` (the latter also tolerates
cancellation before its first step, since its raw-text input is not cleared
by `cancel_job`; at most a progress update may still land after a
cancellation during its in-flight persist call). -/
theorem C2_cancelled_job_not_overwritten :
    (∀ (job_id filename provider model pdf pwmsg combined llm excel_path : List Char)
      (now created : Nat) (cp : CancelPoint) (oExtract : ExtractOutcome)
      (oExpenses : ExpensesOutcome) (oExcel : ExcelOutcome),
      cp ≠ .beforeStart →
      (process_job (fresh_pdf_job job_id filename provider model pdf created)
        cp oExtract oExpenses oExcel pwmsg combined llm excel_path now).cancelled = true →
      (process_job (fresh_pdf_job job_id filename provider model pdf created)
        cp oExtract oExpenses oExcel pwmsg combined llm excel_path now).status = .CANCELLED ∧
      (process_job (fresh_pdf_job job_id filename provider model pdf created)
        cp oExtract oExpenses oExcel pwmsg combined llm excel_path now).error_message = none ∧
      (process_job (fresh_pdf_job job_id filename provider model pdf created)
        cp oExtract oExpenses oExcel pwmsg combined llm excel_path now).excel_path = none) ∧
    (∀ (job_id provider model text llm excel_path : List Char) (now created : Nat)
      (cp : RCancelPoint) (oExtract : ExpensesOutcome) (oExcel : ExcelOutcome),
      (process_receipt_job (fresh_text_job job_id provider model text created)
        cp oExtract oExcel llm excel_path now).cancelled = true →
      (process_receipt_job (fresh_text_job job_id provider model text created)
        cp oExtract oExcel llm excel_path now).status = .CANCELLED ∧
      (process_receipt_job (fresh_text_job job_id provider model text created)
        cp oExtract oExcel llm excel_path now).error_message = none ∧
      (process_receipt_job (fresh_text_job job_id provider model text created)
        cp oExtract oExcel llm excel_path now).excel_path = none) := by
  constructor
  · intro job_id filename provider model pdf pwmsg combined llm excel_path now created
      cp oExtract oExpenses oExcel hcp hc
    cases cp <;> cases oExtract <;> cases oExpenses <;> cases oExcel <;>
      simp_all [process_job, cancelAt, applyCancel, fresh_pdf_job,
        update_job_status_core, update_job_progress_core, set_job_details_core,
        set_job_error_core, set_job_completed_core, set_job_password_required_core,
        cancel_job_core]
  · intro job_id provider model text llm excel_path now created cp oExtract oExcel hc
    cases cp <;> cases oExtract <;> cases oExcel <;>
      simp_all [process_receipt_job, rcancelAt, applyCancel, fresh_text_job,
        update_job_status_core, update_job_progress_core, set_job_details_core,
        set_job_error_core, set_job_completed_core, cancel_job_core]

/-- C2 witness: a job cancelled while its extraction stage is in flight ends
CANCELLED with no error message and no excel path. -/
theorem C2_cancelled_job_not_overwritten_witness :
    ((CancelPoint.duringExtract ≠ CancelPoint.beforeStart) ∧
      (process_job (fresh_pdf_job ("j1".data) ("f.pdf".data) ("online".data)
          ("gpt-4o-mini".data) ("PDF".data) 0)
        .duringExtract .ok .ok .ok ("pw".data) ("text".data) ("prompt".data)
        ("out.xlsx".data) 1).cancelled = true) ∧
    ((process_job (fresh_pdf_job ("j1".data) ("f.pdf".data) ("online".data)
          ("gpt-4o-mini".data) ("PDF".data) 0)
        .duringExtract .ok .ok .ok ("pw".data) ("text".data) ("prompt".data)
        ("out.xlsx".data) 1).status = .CANCELLED ∧
      (process_job (fresh_pdf_job ("j1".data) ("f.pdf".data) ("online".data)
          ("gpt-4o-mini".data) ("PDF".data) 0)
        .duringExtract .ok .ok .ok ("pw".data) ("text".data) ("prompt".data)
        ("out.xlsx".data) 1).error_message = none ∧
      (process_job (fresh_pdf_job ("j1".data) ("f.pdf".data) ("online".data)
          ("gpt-4o-mini".data) ("PDF".data) 0)
        .duringExtract .ok .ok .ok ("pw".data) ("text".data) ("prompt".data)
        ("out.xlsx".data) 1).excel_path = none) :=
  ⟨⟨by decide, by decide⟩,
   C2_cancelled_job_not_overwritten.1 ("j1".data) ("f.pdf".data) ("online".data)
     ("gpt-4o-mini".data) ("PDF".data) ("pw".data) ("text".data) ("prompt".data)
     ("out.xlsx".data) 1 0 .duringExtract .ok .ok .ok (by decide) (by decide)⟩

/-- C3.  The claim asserts `cancel` returns false whenever the job is already
terminal, including CANCELLED; but the return value re-reads the cancelled
flag, so cancelling an already-cancelled job returns true again: create,
cancel (true), cancel once more still yields true where the claim demands
false. -/
theorem C3_counterexample :
    (cancel_job
      (cancel_job
        (create_job [] ("j1".data) ("f.pdf".data) ("online".data) ("gpt-4o-mini".data)
          ("PDF".data) 0)
        ("j1".data)).1
      ("j1".data)).2 = true := by
  decide

/-- C3 (amended).  `cancel(id)` transitions a WAITING or PROCESSING job to
CANCELLED, clears `pdf_content`, sets `cancelled := true` and returns true; it
returns false as a no-op when the id is unknown; and on any other job it
performs no mutation and returns that job's current `cancelled` flag — so a
COMPLETED or ERROR job whose flag is unset yields false, while an
already-CANCELLED job yields true again. -/
theorem C3_cancel_job_spec (reg : Registry) (job_id : List Char) :
    (get_job reg job_id = none → cancel_job reg job_id = (reg, false)) ∧
    (∀ j, get_job reg job_id = some j → (j.status = .WAITING ∨ j.status = .PROCESSING) →
      cancel_job reg job_id = (modifyJob reg job_id cancel_job_core, true) ∧
      get_job (cancel_job reg job_id).1 job_id =
        some { j with cancelled := true, status := .CANCELLED, pdf_content := none }) ∧
    (∀ j, get_job reg job_id = some j → ¬(j.status = .WAITING ∨ j.status = .PROCESSING) →
      cancel_job reg job_id = (reg, j.cancelled)) := by
  refine ⟨fun h => by simp [cancel_job, h], fun j hj hs => ?_, fun j hj hs => by
    simp [cancel_job, hj, hs]⟩
  have h1 : cancel_job reg job_id = (modifyJob reg job_id cancel_job_core, true) := by
    simp [cancel_job, hj, hs]
  refine ⟨h1, ?_⟩
  rw [h1]
  simp [get_job_modifyJob, hj, cancel_job_core]

/-- C3 witness: cancelling a fresh WAITING job mutates it and returns true. -/
theorem C3_cancel_job_spec_witness :
    get_job
      (create_job [] ("j1".data) ("f.pdf".data) ("online".data) ("gpt-4o-mini".data)
        ("PDF".data) 0)
      ("j1".data) = some (fresh_pdf_job ("j1".data) ("f.pdf".data) ("online".data)
        ("gpt-4o-mini".data) ("PDF".data) 0) ∧
    ((fresh_pdf_job ("j1".data) ("f.pdf".data) ("online".data)
        ("gpt-4o-mini".data) ("PDF".data) 0).status = .WAITING ∨
      (fresh_pdf_job ("j1".data) ("f.pdf".data) ("online".data)
        ("gpt-4o-mini".data) ("PDF".data) 0).status = .PROCESSING) ∧
    (cancel_job
      (create_job [] ("j1".data) ("f.pdf".data) ("online".data) ("gpt-4o-mini".data)
        ("PDF".data) 0)
      ("j1".data)).2 = true :=
  ⟨by decide, by decide,
   by
    have h := ((C3_cancel_job_spec
      (create_job [] ("j1".data) ("f.pdf".data) ("online".data) ("gpt-4o-mini".data)
        ("PDF".data) 0)
      ("j1".data)).2.1
      (fresh_pdf_job ("j1".data) ("f.pdf".data) ("online".data) ("gpt-4o-mini".data)
        ("PDF".data) 0)
      (by decide) (by decide)).1
    rw [h]⟩

/-- C4.  The spec's invariant — `finished_at` is set iff the status is
terminal — is the evident intent: both other terminal transitions
(`set_job_error`, `set_job_completed`) stamp `finished_at`, and
`Job.get_elapsed_seconds` treats a job without `finished_at` as still
running.  `cancel_job` alone omits the stamp, so a cancelled job is terminal
with `finished_at` unset and its reported elapsed time keeps growing.  This
theorem evaluates the code at the failing input: create then cancel. -/
theorem C4_cancel_job_finished_at_bug :
    (get_job
      (cancel_job
        (create_job [] ("j1".data) ("f.pdf".data) ("online".data) ("gpt-4o-mini".data)
          ("PDF".data) 0)
        ("j1".data)).1
      ("j1".data)).map Job.status = some .CANCELLED ∧
    (get_job
      (cancel_job
        (create_job [] ("j1".data) ("f.pdf".data) ("online".data) ("gpt-4o-mini".data)
          ("PDF".data) 0)
        ("j1".data)).1
      ("j1".data)).map Job.finished_at = some none := by
  decide

/-- C5.  When extraction fails with PasswordRequired or PasswordIncorrect the
job moves to the non-terminal PASSWORD_REQUIRED state (not ERROR), and a
resubmission whose password is correct resets the job for retry and replays
every stage through to COMPLETED with the artifact path set and the pending
message cleared.  (The password registry operations are modelled from the
spec; see `set_job_password_required_core` and `reset_job_for_retry_core`.) -/
theorem C5_password_flow
    (job_id filename provider model pdf pwmsg combined llm excel_path : List Char)
    (now created : Nat) :
    (∀ o, (o = ExtractOutcome.passwordRequired ∨ o = ExtractOutcome.passwordIncorrect) →
      (process_job (fresh_pdf_job job_id filename provider model pdf created)
        .never o .ok .ok pwmsg combined llm excel_path now).status = .PASSWORD_REQUIRED ∧
      ¬ terminalStatus (process_job (fresh_pdf_job job_id filename provider model pdf created)
        .never o .ok .ok pwmsg combined llm excel_path now).status) ∧
    (process_job_with_password
      (process_job (fresh_pdf_job job_id filename provider model pdf created)
        .never .passwordRequired .ok .ok pwmsg combined llm excel_path now)
      .never .passwordIncorrect .ok .ok pwmsg combined llm excel_path (now + 1)).status
      = .PASSWORD_REQUIRED ∧
    (process_job_with_password
      (process_job (fresh_pdf_job job_id filename provider model pdf created)
        .never .passwordRequired .ok .ok pwmsg combined llm excel_path now)
      .never .ok .ok .ok pwmsg combined llm excel_path (now + 1)).status = .COMPLETED ∧
    (process_job_with_password
      (process_job (fresh_pdf_job job_id filename provider model pdf created)
        .never .passwordRequired .ok .ok pwmsg combined llm excel_path now)
      .never .ok .ok .ok pwmsg combined llm excel_path (now + 1)).excel_path
      = some excel_path ∧
    (process_job_with_password
      (process_job (fresh_pdf_job job_id filename provider model pdf created)
        .never .passwordRequired .ok .ok pwmsg combined llm excel_path now)
      .never .ok .ok .ok pwmsg combined llm excel_path (now + 1)).progress = 100 := by
  refine ⟨fun o ho => ?_, ?_, ?_, ?_, ?_⟩ <;>
    first
    | (rcases ho with h | h <;> subst h <;>
        simp [process_job, cancelAt, applyCancel, fresh_pdf_job, terminalStatus,
          update_job_status_core, update_job_progress_core, set_job_details_core,
          set_job_error_core, set_job_completed_core, set_job_password_required_core,
          reset_job_for_retry_core, cancel_job_core])
    | simp [process_job, process_job_with_password, cancelAt, applyCancel, fresh_pdf_job,
        update_job_status_core, update_job_progress_core, set_job_details_core,
        set_job_error_core, set_job_completed_core, set_job_password_required_core,
        reset_job_for_retry_core, cancel_job_core]

/-- C5 witness: the password branch followed by a correct resubmission at a
concrete input. -/
theorem C5_password_flow_witness :
    (ExtractOutcome.passwordRequired = ExtractOutcome.passwordRequired ∨
      ExtractOutcome.passwordRequired = ExtractOutcome.passwordIncorrect) ∧
    (process_job (fresh_pdf_job ("j1".data) ("f.pdf".data) ("online".data)
        ("gpt-4o-mini".data) ("PDF".data) 0)
      .never .passwordRequired .ok .ok ("pw".data) ("text".data) ("prompt".data)
      ("out.xlsx".data) 1).status = .PASSWORD_REQUIRED :=
  ⟨Or.inl rfl,
   ((C5_password_flow ("j1".data) ("f.pdf".data) ("online".data) ("gpt-4o-mini".data)
      ("PDF".data) ("pw".data) ("text".data) ("prompt".data) ("out.xlsx".data) 1 0).1
      ExtractOutcome.passwordRequired (Or.inl rfl)).1⟩

/-!
### Deduplication gate (`mongodb_persistence.py`, `receipt_persistence.py`)

`generate_content_hash` canonicalizes each record into a tuple of strings,
sorts the tuples, serializes them as compact JSON and feeds the result to
SHA-256.  The digest is modelled as an arbitrary function of the serialized
bytes (`digest`): SHA-256 is deterministic, so equal serializations give
equal digests, and every theorem below quantifies over `digest`.
Numeric record fields are Python floats that the canonical form reduces to
two decimal places; binary floating point is not faithfully representable
here, so amounts are modelled directly by their integer number of cents,
which the hash-equality claims do not depend on.
-/

/-- Whitespace as recognized by the Python `str.split` / `str.strip`
defaults (the ASCII subset). -/
def isPySpace (c : Char) : Bool :=
  c = ' ' || c = '\t' || c = '\n' || c = '\r' || c = '\x0b' || c = '\x0c'

/-- Helper for `str.split()`: accumulates the current token (reversed). -/
def pySplitAux : List Char → List Char → List (List Char)
  | acc, [] => if acc = [] then [] else [acc.reverse]
  | acc, c :: rest =>
    if isPySpace c then
      if acc = [] then pySplitAux [] rest else acc.reverse :: pySplitAux [] rest
    else
      pySplitAux (c :: acc) rest

/-- Python `s.split()`: split on whitespace runs, dropping empty tokens. -/
def pySplit (s : List Char) : List (List Char) :=
  pySplitAux [] s

/-- `_normalize_string` of both persistence modules: collapse and trim
whitespace (`" ".join(s.strip().split())`; the strip is subsumed by split). -/
def _normalize_string (s : List Char) : List Char :=
  if s = [] then [] else List.intercalate [' '] (pySplit s)

/-- Decimal digits of the integer `n` scaled by 100, as `%.2f` renders it. -/
def formatCents (n : ℤ) : List Char :=
  let m := n.natAbs
  let frac := m % 100
  let digits :=
    Nat.toDigits 10 (m / 100) ++ ['.'] ++
      (if frac < 10 then ['0'] else []) ++ Nat.toDigits 10 frac
  if n < 0 then '-' :: digits else digits

/-- `_normalize_amount`: format to two decimal places (`f"{amount:.2f}"`),
with the float amount modelled by its integer number of cents. -/
def _normalize_amount (amount : ℤ) : List Char :=
  formatCents amount

/-- The `Transaction` schema (`app/schemas/transaction.py`). -/
structure Transaction where
  date : List Char
  description : List Char
  amount : ℤ
  installment : Option (List Char) := none
  currency : List Char
  page : Nat
  confidence : ℤ
  bank : List Char
  deriving DecidableEq, Repr

/-- `_transaction_to_canonical_tuple`: the hash core fields, excluding the
non-deterministic `page`, `confidence` and `bank`. -/
def _transaction_to_canonical_tuple (t : Transaction) : List (List Char) :=
  [_normalize_string t.date,
   _normalize_string t.description,
   _normalize_amount t.amount,
   _normalize_string (t.installment.getD []),
   _normalize_string t.currency]

/-- JSON escaping of one character (as `json.dumps` with
`ensure_ascii=False` emits it). -/
def jsonEscapeChar (c : Char) : List Char :=
  if c = '"' then ['\\', '"']
  else if c = '\\' then ['\\', '\\']
  else if c = '\x08' then ['\\', 'b']
  else if c = '\t' then ['\\', 't']
  else if c = '\n' then ['\\', 'n']
  else if c = '\x0c' then ['\\', 'f']
  else if c = '\r' then ['\\', 'r']
  else if c.toNat < 32 then
    '\\' :: 'u' :: '0' :: '0' :: (if c.toNat < 16 then ['0'] else []) ++ Nat.toDigits 16 c.toNat
  else [c]

/-- A JSON string literal. -/
def jsonString (s : List Char) : List Char :=
  '"' :: (s.map jsonEscapeChar).flatten ++ ['"']

/-- A JSON array of strings (one canonical tuple), compact separators. -/
def jsonStringArray (t : List (List Char)) : List Char :=
  '[' :: List.intercalate [','] (t.map jsonString) ++ [']']

/-- The serialized sorted tuple list:
`json.dumps(sorted_tuples, sort_keys=True, separators=(',',':'), ensure_ascii=False)`. -/
def serializeTuples (tuples : List (List (List Char))) : List Char :=
  '[' :: List.intercalate [','] (tuples.map jsonStringArray) ++ [']']

/-- `sorted(canonical_tuples)`: Python sorts the string tuples
lexicographically; equal tuples are identical, so any stable or unstable
sort of the same multiset yields the same list. -/
def sortTuples (tuples : List (List (List Char))) : List (List (List Char)) :=
  List.insertionSort (fun a b => a ≤ b) tuples

/-- `generate_content_hash` (`mongodb_persistence.py` lines 71-88), with the
SHA-256 step abstracted as the function `digest` of the serialized form. -/
def generate_content_hash (digest : List Char → List Char)
    (transactions : List Transaction) : List Char :=
  digest (serializeTuples (sortTuples (transactions.map _transaction_to_canonical_tuple)))

/-- The `ReceiptItem` schema (`app/schemas/receipt.py`). -/
structure ReceiptItem where
  item_id : Option (List Char) := none
  item : List Char
  quantidade : ℤ
  valor_unitario : ℤ
  valor_total : ℤ
  desconto : ℤ := 0
  ean : Option (List Char) := none
  deriving DecidableEq, Repr

/-- `_item_to_canonical_tuple` (`receipt_persistence.py` lines 29-34): only
`item`, `quantidade` and `valor_total` enter the hash. -/
def _item_to_canonical_tuple (item : ReceiptItem) : List (List Char) :=
  [_normalize_string item.item,
   _normalize_amount item.quantidade,
   _normalize_amount item.valor_total]

/-- Python truthiness on the optional header strings:
`_normalize_string(x) if x else ""`. -/
def normalizeOptionalHeader (o : Option (List Char)) : List Char :=
  match o with
  | none => []
  | some s => if s = [] then [] else _normalize_string s

/-- One `"key":"value"` member of the serialized hash dict. -/
def jsonMember (key value : List Char) : List Char :=
  jsonString key ++ [':'] ++ value

/-- The serialized `hash_data` dict of `generate_receipt_content_hash`
(`sort_keys=True` orders access_key, cnpj, issue_date, items, market_name). -/
def serializeReceiptHashData (market cnpj access issue : List Char)
    (tuples : List (List (List Char))) : List Char :=
  '\x7b' ::
    (List.intercalate [',']
      [jsonMember ("access_key".data) (jsonString access),
       jsonMember ("cnpj".data) (jsonString cnpj),
       jsonMember ("issue_date".data) (jsonString issue),
       jsonMember ("items".data) (serializeTuples tuples),
       jsonMember ("market_name".data) (jsonString market)]) ++ ['\x7d']

/-- `generate_receipt_content_hash` (`receipt_persistence.py` lines 37-58),
with SHA-256 abstracted as `digest`. -/
def generate_receipt_content_hash (digest : List Char → List Char)
    (items : List ReceiptItem)
    (market_name cnpj access_key issue_date : Option (List Char)) : List Char :=
  digest (serializeReceiptHashData
    (normalizeOptionalHeader market_name)
    (normalizeOptionalHeader cnpj)
    (normalizeOptionalHeader access_key)
    (normalizeOptionalHeader issue_date)
    (sortTuples (items.map _item_to_canonical_tuple)))

/-- Two transactions agreeing on every field that enters the canonical
tuple (they may differ in `page`, `confidence`, `bank`). -/
def coreAgree (t₁ t₂ : Transaction) : Prop :=
  t₁.date = t₂.date ∧ t₁.description = t₂.description ∧ t₁.amount = t₂.amount ∧
    t₁.installment = t₂.installment ∧ t₁.currency = t₂.currency

instance (t₁ t₂ : Transaction) : Decidable (coreAgree t₁ t₂) := by
  unfold coreAgree
  infer_instance

/-- Two receipt items agreeing on every field that enters the canonical
tuple (they may differ in `item_id`, `valor_unitario`, `desconto`, `ean`). -/
def receiptCoreAgree (i₁ i₂ : ReceiptItem) : Prop :=
  i₁.item = i₂.item ∧ i₁.quantidade = i₂.quantidade ∧ i₁.valor_total = i₂.valor_total

instance (i₁ i₂ : ReceiptItem) : Decidable (receiptCoreAgree i₁ i₂) := by
  unfold receiptCoreAgree
  infer_instance

/-- Sorting is a function of the multiset of tuples. -/
theorem sortTuples_eq_of_perm {l₁ l₂ : List (List (List Char))} (h : l₁.Perm l₂) :
    sortTuples l₁ = sortTuples l₂ :=
  List.eq_of_perm_of_sorted
    ((List.perm_insertionSort _ _).trans (h.trans (List.perm_insertionSort _ _).symm))
    (List.sorted_insertionSort _ _) (List.sorted_insertionSort _ _)

/-- Canonical tuples depend only on the core fields. -/
theorem canonical_tuple_eq_of_coreAgree {t₁ t₂ : Transaction} (h : coreAgree t₁ t₂) :
    _transaction_to_canonical_tuple t₁ = _transaction_to_canonical_tuple t₂ := by
  obtain ⟨h1, h2, h3, h4, h5⟩ := h
  simp [_transaction_to_canonical_tuple, h1, h2, h3, h4, h5]

/-- Receipt canonical tuples depend only on the core fields. -/
theorem receipt_tuple_eq_of_coreAgree {i₁ i₂ : ReceiptItem} (h : receiptCoreAgree i₁ i₂) :
    _item_to_canonical_tuple i₁ = _item_to_canonical_tuple i₂ := by
  obtain ⟨h1, h2, h3⟩ := h
  simp [_item_to_canonical_tuple, h1, h2, h3]

/-- Pointwise core agreement yields identical canonical tuple lists. -/
theorem map_canonical_eq_of_forall₂ {l₁ l₂ : List Transaction}
    (h : List.Forall₂ coreAgree l₁ l₂) :
    l₁.map _transaction_to_canonical_tuple = l₂.map _transaction_to_canonical_tuple := by
  induction h with
  | nil => rfl
  | cons hab _ ih => simp [List.map_cons, canonical_tuple_eq_of_coreAgree hab, ih]

/-- Pointwise core agreement yields identical receipt tuple lists. -/
theorem map_receipt_eq_of_forall₂ {l₁ l₂ : List ReceiptItem}
    (h : List.Forall₂ receiptCoreAgree l₁ l₂) :
    l₁.map _item_to_canonical_tuple = l₂.map _item_to_canonical_tuple := by
  induction h with
  | nil => rfl
  | cons hab _ ih => simp [List.map_cons, receipt_tuple_eq_of_coreAgree hab, ih]

/-- C6.  Both content-hash functions are invariant under permutation of the
record list, and under replacing records by records that agree on the
canonical core fields while differing only in the volatile fields excluded
from the canonical tuples (`page`, `confidence`, `bank` for transactions;
`item_id`, `valor_unitario`, `desconto`, `ean` for receipt items), for every
digest function — in particular for SHA-256. -/
theorem C6_content_hash_invariance :
    (∀ (digest : List Char → List Char) (l₁ l₂ : List Transaction), l₁.Perm l₂ →
      generate_content_hash digest l₁ = generate_content_hash digest l₂) ∧
    (∀ (digest : List Char → List Char) (l₁ l₂ : List Transaction),
      List.Forall₂ coreAgree l₁ l₂ →
      generate_content_hash digest l₁ = generate_content_hash digest l₂) ∧
    (∀ (digest : List Char → List Char) (l₁ l₂ : List ReceiptItem)
      (market cnpj access issue : Option (List Char)), l₁.Perm l₂ →
      generate_receipt_content_hash digest l₁ market cnpj access issue
        = generate_receipt_content_hash digest l₂ market cnpj access issue) ∧
    (∀ (digest : List Char → List Char) (l₁ l₂ : List ReceiptItem)
      (market cnpj access issue : Option (List Char)),
      List.Forall₂ receiptCoreAgree l₁ l₂ →
      generate_receipt_content_hash digest l₁ market cnpj access issue
        = generate_receipt_content_hash digest l₂ market cnpj access issue) := by
  refine ⟨fun digest l₁ l₂ h => ?_, fun digest l₁ l₂ h => ?_,
    fun digest l₁ l₂ market cnpj access issue h => ?_,
    fun digest l₁ l₂ market cnpj access issue h => ?_⟩
  · unfold generate_content_hash
    rw [sortTuples_eq_of_perm (h.map _transaction_to_canonical_tuple)]
  · unfold generate_content_hash
    rw [map_canonical_eq_of_forall₂ h]
  · unfold generate_receipt_content_hash
    rw [sortTuples_eq_of_perm (h.map _item_to_canonical_tuple)]
  · unfold generate_receipt_content_hash
    rw [map_receipt_eq_of_forall₂ h]

/-- A sample transaction used in concrete instances. -/
def sampleT1 : Transaction :=
  { date := "2024-01-02".data
    description := "  coffee   shop ".data
    amount := 1234
    installment := none
    currency := "BRL".data
    page := 1
    confidence := 90
    bank := "Nubank".data }

/-- A second sample transaction. -/
def sampleT2 : Transaction :=
  { date := "2024-01-03".data
    description := "market".data
    amount := 550
    installment := some ("1/2".data)
    currency := "BRL".data
    page := 2
    confidence := 80
    bank := "Nubank".data }

/-- C6 witness: swapping two concrete transactions leaves the digest of the
canonical serialized form unchanged. -/
theorem C6_content_hash_invariance_witness :
    ([sampleT1, sampleT2].Perm [sampleT2, sampleT1]) ∧
    generate_content_hash (fun s => s) [sampleT1, sampleT2]
      = generate_content_hash (fun s => s) [sampleT2, sampleT1] :=
  ⟨List.Perm.swap sampleT2 sampleT1 [],
   C6_content_hash_invariance.1 (fun s => s) [sampleT1, sampleT2] [sampleT2, sampleT1]
     (List.Perm.swap sampleT2 sampleT1 [])⟩

/-!
### Segmentation engine (`segmented_receipt_extractor.py`)

`str.find(pat, start)` returns the first code-point index at or after `start`
where `pat` occurs, or -1 (here: `none`).  The difflib similarity score used
by `fuzzy_find` is floating point and library-internal; the scan structure is
embedded exactly and the score is a parameter `ratio` — every theorem below
holds for all `ratio`.
-/

/-- Scan helper for `str.find`: first index at which `pat` is a prefix of the
remaining text, counting from `i`. -/
def pyFindAux (pat : List Char) : List Char → Nat → Option Nat
  | [], i => if pat.isPrefixOf [] then some i else none
  | c :: t, i => if pat.isPrefixOf (c :: t) then some i else pyFindAux pat t (i + 1)

/-- Python `text.find(pat, start)`; `none` stands for the -1 failure value. -/
def pyFind (text pat : List Char) (start : Nat) : Option Nat :=
  if start ≤ text.length then pyFindAux pat (text.drop start) start else none

/-- A successful scan lands at or after its starting index, and the match
fits inside the scanned suffix. -/
theorem pyFindAux_bounds (pat : List Char) : ∀ (t : List Char) (i j : Nat),
    pyFindAux pat t i = some j → i ≤ j ∧ j + pat.length ≤ i + t.length := by
  intro t
  induction t with
  | nil =>
    intro i j h
    by_cases hp : pat.isPrefixOf [] <;> simp [pyFindAux, hp] at h
    have : pat = [] := by
      simpa [List.isPrefixOf_iff_prefix] using hp
    simp [← h, this]
  | cons c t ih =>
    intro i j h
    by_cases hp : pat.isPrefixOf (c :: t)
    · have hj : j = i := by
        simpa [pyFindAux, hp] using h.symm
      have hlen : pat.length ≤ (c :: t).length :=
        (List.isPrefixOf_iff_prefix.mp hp).length_le
      subst hj
      exact ⟨Nat.le_refl _, by omega⟩
    · have h2 := ih (i + 1) j (by simpa [pyFindAux, hp] using h)
      simp only [List.length_cons]
      omega

/-- `str.find` bounds: success implies the index is at or after `start` and
the match fits in the text. -/
theorem pyFind_bounds {text pat : List Char} {start j : Nat}
    (h : pyFind text pat start = some j) :
    start ≤ j ∧ j + pat.length ≤ text.length := by
  by_cases hs : start ≤ text.length
  · have h2 := pyFindAux_bounds pat (text.drop start) start j (by simpa [pyFind, hs] using h)
    rw [List.length_drop] at h2
    omega
  · simp [pyFind, hs] at h

/-- `fuzzy_find` of `segmented_receipt_extractor.py` (lines 126-148): scan a
bounded forward window, keep the best-scoring position, accept it if the best
score reaches the threshold.  The difflib score is the parameter `ratio`; the
source defaults, `window = 800` and `threshold = 0.85`, are supplied at the
call site in `findStart`. -/
def fuzzy_find (ratio : List Char → List Char → ℚ) (text pattern : List Char) (start : Nat)
    (window : Nat) (threshold : ℚ) : Option Nat :=
  let patLen := pattern.length
  let searchEnd := min text.length (start + 5000)
  let scanned := (List.range' start (searchEnd - patLen - start)).foldl
    (fun (acc : ℚ × Option Nat) i =>
      let chunk := (text.drop i).take (patLen + window)
      let r := ratio (chunk.take patLen) pattern
      if acc.1 < r then (r, some i) else acc)
    ((0 : ℚ), (none : Option Nat))
  if threshold ≤ scanned.1 then scanned.2 else none

/-- The best-position scan only ever stores indices drawn from the range it
visits. -/
theorem fuzzy_scan_mem (step : ℚ × Option Nat → Nat → ℚ × Option Nat)
    (hstep : ∀ acc i, (step acc i).2 = some (i : Nat) ∨ (step acc i).2 = acc.2) :
    ∀ (l : List Nat) (acc : ℚ × Option Nat) (j : Nat),
      (l.foldl step acc).2 = some j → j ∈ l ∨ acc.2 = some j := by
  intro l
  induction l with
  | nil => intro acc j h; exact Or.inr h
  | cons i t ih =>
    intro acc j h
    rcases ih (step acc i) j h with hm | hs
    · exact Or.inl (List.mem_cons_of_mem _ hm)
    · rcases hstep acc i with he | he
      · rw [he] at hs
        have hji : j = i := (Option.some_inj.mp hs).symm
        exact Or.inl (hji ▸ List.mem_cons_self i t)
      · exact Or.inr (he ▸ hs)

/-- A successful fuzzy match lands at or after its starting index, for every
similarity score. -/
theorem fuzzy_find_ge (ratio : List Char → List Char → ℚ) (text pattern : List Char)
    (start window : Nat) (threshold : ℚ) (j : Nat)
    (h : fuzzy_find ratio text pattern start window threshold = some j) : start ≤ j := by
  unfold fuzzy_find at h
  by_cases ht : threshold ≤ ((List.range' start (min text.length (start + 5000) - pattern.length - start)).foldl
      (fun (acc : ℚ × Option Nat) i =>
        let chunk := (text.drop i).take (pattern.length + window)
        let r := ratio (chunk.take pattern.length) pattern
        if acc.1 < r then (r, some i) else acc)
      ((0 : ℚ), (none : Option Nat))).1
  · simp only [ht, if_true] at h
    have := fuzzy_scan_mem
      (fun (acc : ℚ × Option Nat) i =>
        let chunk := (text.drop i).take (pattern.length + window)
        let r := ratio (chunk.take pattern.length) pattern
        if acc.1 < r then (r, some i) else acc)
      (fun acc i => by
        by_cases hc : acc.1 < ratio (((text.drop i).take (pattern.length + window)).take pattern.length) pattern <;>
          simp [hc])
      (List.range' start (min text.length (start + 5000) - pattern.length - start))
      ((0 : ℚ), (none : Option Nat)) j h
    rcases this with hm | hs
    · rcases List.mem_range'.mp hm with ⟨k, _, hk⟩
      omega
    · simp at hs
  · simp [ht] at h

deriving instance DecidableEq for Except

/-- One skeleton entry (`{sequence, start_anchor, end_anchor}`); missing
anchors are modelled by the empty string, matching `item.get(..., "")`. -/
structure SkeletonItem where
  sequence : Nat := 0
  start_anchor : List Char := []
  end_anchor : List Char := []
  deriving DecidableEq, Repr

/-- Start-anchor resolution (lines 185-198): exact case-sensitive find from
the cursor, then the fuzzy fallback from the same cursor. -/
def findStart (ratio : List Char → List Char → ℚ) (text anchor : List Char)
    (cursor : Nat) : Option Nat :=
  match pyFind text anchor cursor with
  | some i => some i
  | none => fuzzy_find ratio text anchor cursor 800 (85/100)

/-- Start-anchor resolution never lands before the cursor. -/
theorem findStart_ge (ratio : List Char → List Char → ℚ) (text anchor : List Char)
    (cursor i : Nat) (h : findStart ratio text anchor cursor = some i) : cursor ≤ i := by
  unfold findStart at h
  cases hf : pyFind text anchor cursor with
  | some k =>
    rw [hf] at h
    exact Option.some_inj.mp h ▸ (pyFind_bounds hf).1
  | none =>
    rw [hf] at h
    exact fuzzy_find_ge ratio text anchor cursor 800 (85/100) i h

/-- The anchor-resolution loop of `extract_item_text_by_anchors`
(lines 151-258), returning the resolved spans `[start_index, slice_end)`,
where `slice_end = end_index + len(end_anchor)` is also the next cursor.
The end anchor is searched case-insensitively from the start index. -/
def resolveSpans (ratio : List Char → List Char → ℚ) (text : List Char) :
    List SkeletonItem → Nat → Except (List Char) (List (Nat × Nat))
  | [], _ => .ok []
  | item :: rest, cursor =>
    if item.start_anchor = [] ∨ item.end_anchor = [] then
      .error ("missing start_anchor or end_anchor".data)
    else
      match findStart ratio text item.start_anchor cursor with
      | none => .error ("Could not find start_anchor (exact or fuzzy)".data)
      | some startIdx =>
        match pyFind (text.map Char.toLower) (item.end_anchor.map Char.toLower) startIdx with
        | none => .error ("Could not find end_anchor".data)
        | some endIdx =>
          if endIdx < startIdx then .error ("Invalid anchor order".data)
          else
            match resolveSpans ratio text rest (endIdx + item.end_anchor.length) with
            | .ok spans => .ok ((startIdx, endIdx + item.end_anchor.length) :: spans)
            | .error e => .error e

/-- `extract_item_text_by_anchors`: the returned blocks are the text slices
of the resolved spans. -/
def extract_item_text_by_anchors (ratio : List Char → List Char → ℚ)
    (text : List Char) (items : List SkeletonItem) : Except (List Char) (List (List Char)) :=
  (resolveSpans ratio text items 0).map
    (fun spans => spans.map (fun p => (text.drop p.1).take (p.2 - p.1)))

/-- The chain property: starting from cursor `c`, every span starts at or
after the current cursor, is nonempty, and hands its end to the next span as
the new cursor. -/
def spansOrdered : Nat → List (Nat × Nat) → Prop
  | _, [] => True
  | c, p :: rest => c ≤ p.1 ∧ p.1 < p.2 ∧ spansOrdered p.2 rest

instance : ∀ (c : Nat) (spans : List (Nat × Nat)), Decidable (spansOrdered c spans)
  | _, [] => by
    unfold spansOrdered
    infer_instance
  | c, p :: rest =>
    have : Decidable (spansOrdered p.2 rest) := instDecidableSpansOrdered p.2 rest
    by
      unfold spansOrdered
      infer_instance

/-- Every span of an ordered chain starts at or after the initial cursor. -/
theorem spansOrdered_le_first : ∀ (c : Nat) (spans : List (Nat × Nat)),
    spansOrdered c spans → ∀ p ∈ spans, c ≤ p.1 := by
  intro c spans
  induction spans generalizing c with
  | nil => intro _ p hp; cases hp
  | cons q rest ih =>
    intro h p hp
    obtain ⟨h1, h2, h3⟩ := h
    rcases List.mem_cons.mp hp with rfl | hm
    · exact h1
    · exact le_trans (le_trans h1 (Nat.le_of_lt h2)) (ih q.2 h3 p hm)

/-- An ordered chain is pairwise disjoint in document order. -/
theorem spansOrdered_pairwise : ∀ (c : Nat) (spans : List (Nat × Nat)),
    spansOrdered c spans → List.Pairwise (fun p q => p.2 ≤ q.1) spans := by
  intro c spans
  induction spans generalizing c with
  | nil => intro _; exact List.Pairwise.nil
  | cons q rest ih =>
    intro h
    obtain ⟨_, _, h3⟩ := h
    exact List.Pairwise.cons (fun p hp => spansOrdered_le_first q.2 rest h3 p hp) (ih q.2 h3)

/-- Every span of an ordered chain is nonempty. -/
theorem spansOrdered_lt : ∀ (c : Nat) (spans : List (Nat × Nat)),
    spansOrdered c spans → ∀ p ∈ spans, p.1 < p.2 := by
  intro c spans
  induction spans generalizing c with
  | nil => intro _ p hp; cases hp
  | cons q rest ih =>
    intro h p hp
    obtain ⟨_, h2, h3⟩ := h
    rcases List.mem_cons.mp hp with rfl | hm
    · exact h2
    · exact ih q.2 h3 p hm

/-- Successful anchor resolution yields an ordered chain from its cursor. -/
theorem resolveSpans_ordered (ratio : List Char → List Char → ℚ) (text : List Char) :
    ∀ (items : List SkeletonItem) (c : Nat) (spans : List (Nat × Nat)),
      resolveSpans ratio text items c = .ok spans → spansOrdered c spans := by
  intro items
  induction items with
  | nil =>
    intro c spans h
    simp only [resolveSpans, Except.ok.injEq] at h
    simp [← h, spansOrdered]
  | cons item rest ih =>
    intro c spans h
    by_cases hguard : item.start_anchor = [] ∨ item.end_anchor = []
    · simp [resolveSpans, hguard] at h
    · cases hfs : findStart ratio text item.start_anchor c with
      | none => simp [resolveSpans, hguard, hfs] at h
      | some startIdx =>
        cases hfe : pyFind (text.map Char.toLower) (item.end_anchor.map Char.toLower) startIdx with
        | none => simp [resolveSpans, hguard, hfs, hfe] at h
        | some endIdx =>
          by_cases horder : endIdx < startIdx
          · simp [resolveSpans, hguard, hfs, hfe, horder] at h
          · cases hrec : resolveSpans ratio text rest (endIdx + item.end_anchor.length) with
            | error e => simp [resolveSpans, hguard, hfs, hfe, horder, hrec] at h
            | ok tailSpans =>
              have hspans : spans = (startIdx, endIdx + item.end_anchor.length) :: tailSpans := by
                have := h
                simp [resolveSpans, hguard, hfs, hfe, horder, hrec] at this
                exact this.symm
              subst hspans
              have hanchor : item.end_anchor.length ≠ 0 := by
                intro h0
                exact hguard (Or.inr (List.length_eq_zero.mp h0))
              have hse := (pyFind_bounds hfe).1
              refine ⟨findStart_ge ratio text item.start_anchor c startIdx hfs, by omega,
                ih (endIdx + item.end_anchor.length) tailSpans hrec⟩

/-- C7.  When anchor resolution returns, the search cursor is monotonically
non-decreasing across iterations — each resolved span starts at or after the
cursor handed on from the previous block (`spansOrdered 0 spans`) — and the
resolved block spans `[start_index, end_index + len(end_anchor))` are
nonempty, pairwise disjoint and strictly increasing in document order; the
returned item texts are exactly the slices of these spans.  Holds for every
similarity score `ratio`, hence for the difflib score used by `fuzzy_find`.
The repeated-anchor instance of the claim is the witness theorem. -/
theorem C7_anchor_cursor_monotone (ratio : List Char → List Char → ℚ)
    (text : List Char) (items : List SkeletonItem) (spans : List (Nat × Nat))
    (h : resolveSpans ratio text items 0 = .ok spans) :
    spansOrdered 0 spans ∧
    List.Pairwise (fun p q => p.2 ≤ q.1) spans ∧
    (∀ p ∈ spans, p.1 < p.2) ∧
    extract_item_text_by_anchors ratio text items
      = .ok (spans.map (fun p => (text.drop p.1).take (p.2 - p.1))) := by
  have hord := resolveSpans_ordered ratio text items 0 spans h
  exact ⟨hord, spansOrdered_pairwise 0 spans hord, spansOrdered_lt 0 spans hord,
    by simp [extract_item_text_by_anchors, h, Except.map]⟩

/-- A document containing the same anchor pair three times: the skeleton for
C7's repeated-anchor example. -/
def tripleAnchorSkeleton : List SkeletonItem :=
  [{ sequence := 1, start_anchor := "Item".data, end_anchor := "total".data },
   { sequence := 2, start_anchor := "Item".data, end_anchor := "total".data },
   { sequence := 3, start_anchor := "Item".data, end_anchor := "total".data }]

/-- The document for the repeated-anchor example. -/
def tripleAnchorText : List Char :=
  "Item a Total 1; Item b Total 2; Item c Total 3;".data

/-- C7 witness: with the same anchor text repeated three times, the three
resolved blocks are disjoint and in document order. -/
theorem C7_anchor_cursor_monotone_witness :
    (resolveSpans (fun _ _ => 0) tripleAnchorText tripleAnchorSkeleton 0
      = .ok [(0, 12), (16, 28), (32, 44)]) ∧
    (spansOrdered 0 [(0, 12), (16, 28), (32, 44)] ∧
      List.Pairwise (fun p q => p.2 ≤ q.1) [(0, 12), (16, 28), (32, 44)] ∧
      (∀ p ∈ [(0, 12), (16, 28), (32, 44)], p.1 < p.2) ∧
      extract_item_text_by_anchors (fun _ _ => 0) tripleAnchorText tripleAnchorSkeleton
        = .ok ([(0, 12), (16, 28), (32, 44)].map
            (fun p => (tripleAnchorText.drop p.1).take (p.2 - p.1)))) :=
  ⟨by decide,
   C7_anchor_cursor_monotone (fun _ _ => 0) tripleAnchorText tripleAnchorSkeleton
     [(0, 12), (16, 28), (32, 44)] (by decide)⟩

/-- A successful scan finds the pattern as a prefix of the corresponding
suffix of the scanned text. -/
theorem pyFindAux_isPrefix (pat : List Char) : ∀ (t : List Char) (i j : Nat),
    pyFindAux pat t i = some j → pat <+: t.drop (j - i) := by
  intro t
  induction t with
  | nil =>
    intro i j h
    by_cases hp : pat.isPrefixOf [] <;> simp [pyFindAux, hp] at h
    simpa [← h, List.isPrefixOf_iff_prefix] using hp
  | cons c t ih =>
    intro i j h
    by_cases hp : pat.isPrefixOf (c :: t)
    · have hj : j = i := by
        simpa [pyFindAux, hp] using h.symm
      subst hj
      simpa [List.isPrefixOf_iff_prefix] using hp
    · have h2 := ih (i + 1) j (by simpa [pyFindAux, hp] using h)
      have hij : i + 1 ≤ j := (pyFindAux_bounds pat t (i + 1) j
        (by simpa [pyFindAux, hp] using h)).1
      have : j - i = (j - (i + 1)) + 1 := by omega
      simpa [this] using h2

/-- `str.find` success finds the pattern at the returned index. -/
theorem pyFind_isPrefix {text pat : List Char} {start j : Nat}
    (h : pyFind text pat start = some j) : pat <+: text.drop j := by
  by_cases hs : start ≤ text.length
  · have h2 := pyFindAux_isPrefix pat (text.drop start) start j
      (by simpa [pyFind, hs] using h)
    have hj : start ≤ j := (pyFind_bounds h).1
    rw [List.drop_drop] at h2
    have : start + (j - start) = j := by omega
    rwa [this] at h2
  · simp [pyFind, hs] at h

/-- Repeated `str.find`, as `re.finditer` over the constant pattern
`"cofins"`: the list of match end indices, scanning left to right without
overlap.  The fuel only bounds the iteration count; for a non-empty pattern
`text.length + 1` iterations always suffice (`findAllAux_fuel_sufficient`). -/
def findAllAux (text pat : List Char) : Nat → Nat → List Nat
  | 0, _ => []
  | fuel + 1, start =>
    match pyFind text pat start with
    | none => []
    | some i => (i + pat.length) :: findAllAux text pat fuel (i + pat.length)

/-- All match end indices of `pat` in `text`, in document order. -/
def findAll (text pat : List Char) : List Nat :=
  findAllAux text pat (text.length + 1) 0

/-- Scanning past the end of the text finds nothing. -/
theorem pyFind_none_of_gt {text pat : List Char} {start : Nat}
    (h : text.length < start) : pyFind text pat start = none := by
  simp [pyFind, Nat.not_le.mpr h]

/-- The fuel of `findAllAux` is irrelevant once it covers the remaining text:
every iteration advances the scan position by at least the (positive) pattern
length. -/
theorem findAllAux_fuel_sufficient (text pat : List Char) (hp : pat ≠ []) :
    ∀ (fuel₁ fuel₂ start : Nat), text.length + 1 ≤ fuel₁ + start →
      text.length + 1 ≤ fuel₂ + start →
      findAllAux text pat fuel₁ start = findAllAux text pat fuel₂ start := by
  intro fuel₁
  induction fuel₁ with
  | zero =>
    intro fuel₂ start h₁ h₂
    have hnone : pyFind text pat start = none := pyFind_none_of_gt (by omega)
    cases fuel₂ with
    | zero => rfl
    | succ g => simp [findAllAux, hnone]
  | succ f ih =>
    intro fuel₂ start h₁ h₂
    cases fuel₂ with
    | zero =>
      have hnone : pyFind text pat start = none := pyFind_none_of_gt (by omega)
      simp [findAllAux, hnone]
    | succ g =>
      cases hf : pyFind text pat start with
      | none => simp [findAllAux, hf]
      | some i =>
        have hb := pyFind_bounds hf
        have hplen : 1 ≤ pat.length := List.length_pos.mpr hp
        simp only [findAllAux, hf]
        rw [ih g (i + pat.length) (by omega) (by omega)]

/-- The terminating marker, lowercase. -/
def cofinsLower : List Char := "cofins".data

/-- End indices of `re.finditer(r"cofins", text, re.IGNORECASE)`: matches of
the lowercase pattern in the per-character-lowered text (indices agree with
the original text). -/
def cofinsMatchEnds (text : List Char) : List Nat :=
  findAll (text.map Char.toLower) cofinsLower

/-- The skeleton dict `{total_items, items}`. -/
structure Skeleton where
  total_items : Nat
  items : List SkeletonItem
  deriving DecidableEq, Repr

/-- `extract_skeleton_by_cofins` (lines 527-613): one candidate block per
COFINS match, the last discarded as footer.  The loop appends an item for
every match index below `k - 1`, i.e. for the first `k - 1` match ends; each
item records its 1-based sequence and the matched text (6 characters ending
at the match end) as its end anchor. -/
def extract_skeleton_by_cofins (text : List Char) : Except (List Char) Skeleton :=
  if text = [] ∨ text.all isPySpace then .error ("Empty OCR text".data)
  else
    let ends := cofinsMatchEnds text
    if ends.length < 2 then
      .error ("Not enough COFINS blocks to extract items (need at least 2)".data)
    else
      let items := (ends.take (ends.length - 1)).enum.map
        (fun p =>
          { sequence := p.1 + 1
            start_anchor := "__DETERMINISTIC_START__".data
            end_anchor := (text.drop (p.2 - 6)).take 6 })
      .ok { total_items := items.length, items := items }

/-- Whitespace characters are unchanged by lowering. -/
theorem isPySpace_toLower {c : Char} (h : isPySpace c = true) : c.toLower = c := by
  simp only [isPySpace, Bool.or_eq_true, decide_eq_true_eq] at h
  rcases h with ((((h | h) | h) | h) | h) | h <;> subst h <;> decide

/-- A COFINS match forces a non-whitespace character, so the empty-text guard
of `extract_skeleton_by_cofins` cannot fire when a match exists. -/
theorem cofins_match_nonspace (text : List Char)
    (h : 1 ≤ (cofinsMatchEnds text).length) :
    ¬(text = [] ∨ text.all isPySpace) := by
  intro hguard
  cases hf : pyFind (text.map Char.toLower) cofinsLower 0 with
  | none =>
    rw [cofinsMatchEnds, findAll] at h
    cases hlen : (text.map Char.toLower).length + 1 with
    | zero => omega
    | succ n =>
      rw [hlen] at h
      simp [findAllAux, hf] at h
  | some i =>
    have hpre := pyFind_isPrefix hf
    obtain ⟨rest, hrest⟩ := hpre
    have hc : ('c' : Char) ∈ (text.map Char.toLower).drop i := by
      rw [← hrest]
      simp [cofinsLower]
    have hcmem : ('c' : Char) ∈ text.map Char.toLower := List.mem_of_mem_drop hc
    obtain ⟨c₀, hc₀mem, hc₀⟩ := List.mem_map.mp hcmem
    rcases hguard with hnil | hall
    · subst hnil
      cases hc₀mem
    · have hsp : isPySpace c₀ = true := List.all_eq_true.mp hall c₀ hc₀mem
      have : c₀ = 'c' := by rw [← hc₀, isPySpace_toLower hsp]
      subst this
      simp [isPySpace] at hsp

/-- The batch size constant (`BATCH_SIZE = 10`). -/
def BATCH_SIZE : Nat := 10

/-- The batch grouping of
`extract_items_paginated_with_deterministic_skeleton` (lines 779-809): batch
`b` of `ceil(total / B)` receives `item_texts[b*B : min(b*B + B, total)]`. -/
def batchSlices (itemTexts : List (List Char)) : List (List (List Char)) :=
  let total := itemTexts.length
  let totalBatches := (total + BATCH_SIZE - 1) / BATCH_SIZE
  (List.range totalBatches).map
    (fun b => (itemTexts.drop (b * BATCH_SIZE)).take
      (min (b * BATCH_SIZE + BATCH_SIZE) total - b * BATCH_SIZE))

/-- The per-batch sizes computed from the total alone. -/
def expectedCounts (total : Nat) : List Nat :=
  (List.range ((total + BATCH_SIZE - 1) / BATCH_SIZE)).map
    (fun b => min (b * BATCH_SIZE + BATCH_SIZE) total - b * BATCH_SIZE)

/-- Batch sizes depend only on the item count. -/
theorem batchSlices_sizes (itemTexts : List (List Char)) :
    (batchSlices itemTexts).map List.length = expectedCounts itemTexts.length := by
  unfold batchSlices expectedCounts
  rw [List.map_map]
  refine List.map_congr_left (fun b hb => ?_)
  simp only [Function.comp_apply, List.length_take, List.length_drop]
  omega

/-- C8.  For every document with `k ≥ 2` case-insensitive COFINS matches the
deterministic skeleton holds exactly `k - 1` items (the final span is
discarded as footer), and the paginated loop groups 22 item blocks into
batches of sizes `[10, 10, 2]` with `BATCH_SIZE = 10`. -/
theorem C8_cofins_skeleton_counts :
    (∀ text : List Char, 2 ≤ (cofinsMatchEnds text).length →
      (extract_skeleton_by_cofins text).map (fun sk => (sk.items.length, sk.total_items))
        = .ok ((cofinsMatchEnds text).length - 1, (cofinsMatchEnds text).length - 1)) ∧
    (∀ itemTexts : List (List Char), itemTexts.length = 22 →
      (batchSlices itemTexts).map List.length = [10, 10, 2]) := by
  constructor
  · intro text hk
    have hguard := cofins_match_nonspace text (by omega)
    have hnot2 : ¬ (cofinsMatchEnds text).length < 2 := by omega
    simp only [extract_skeleton_by_cofins, if_neg hguard, if_neg hnot2, Except.map,
      List.length_map, List.enum_length, List.length_take, Except.ok.injEq, Prod.mk.injEq]
    omega
  · intro itemTexts hlen
    rw [batchSlices_sizes, hlen]
    decide

/-- A document with 23 COFINS markers, for the concrete example of C8. -/
def cofinsExampleText : List Char :=
  "item1 cofins item2 cofins item3 cofins item4 cofins item5 cofins item6 cofins item7 cofins item8 cofins item9 cofins item10 cofins item11 cofins item12 cofins item13 cofins item14 cofins item15 cofins item16 cofins item17 cofins item18 cofins item19 cofins item20 cofins item21 cofins item22 cofins item23 cofins".data

set_option maxRecDepth 100000 in
/-- C8 witness: 23 marker occurrences yield 22 segmented items, and 22 blocks
are grouped into batches of sizes 10, 10 and 2. -/
theorem C8_cofins_skeleton_counts_witness :
    ((cofinsMatchEnds cofinsExampleText).length = 23) ∧
    (2 ≤ (cofinsMatchEnds cofinsExampleText).length ∧
      (extract_skeleton_by_cofins cofinsExampleText).map
          (fun sk => (sk.items.length, sk.total_items))
        = .ok ((cofinsMatchEnds cofinsExampleText).length - 1,
            (cofinsMatchEnds cofinsExampleText).length - 1)) ∧
    ((List.replicate 22 ([] : List Char)).length = 22 ∧
      (batchSlices (List.replicate 22 ([] : List Char))).map List.length = [10, 10, 2]) :=
  ⟨by decide,
   ⟨by decide, C8_cofins_skeleton_counts.1 cofinsExampleText (by decide)⟩,
   ⟨by decide, C8_cofins_skeleton_counts.2 (List.replicate 22 ([] : List Char)) (by decide)⟩⟩

/-!
### Batch extraction validation (`extract_items_from_batch`, lines 270-355)

The oracle reply is `json.loads(content)`; the parse-or-fail boundary is
modelled by `Option Json` (`none` covers both an `LLMError` from the chat
call and a `json.JSONDecodeError`, which raise the same
`SegmentedExtractionError`).
-/

/-- A JSON value as `json.loads` produces it (parsed objects have unique
keys, later duplicates winning; lookups model `dict` access by first match
on the already-deduplicated member list). -/
inductive Json where
  | null
  | bool (b : Bool)
  | num (n : ℤ)
  | str (s : List Char)
  | arr (xs : List Json)
  | obj (members : List (List Char × Json))

/-- The fixed `REQUIRED_FIELDS` set. -/
def requiredFields : List (List Char) :=
  ["item".data, "quantidade".data, "valor_unitario".data, "valor_total".data,
   "desconto".data, "ean".data]

/-- The per-item loop (lines 343-353): each element must be an object
carrying all required fields; the first offender aborts everything. -/
def validateItems : List Json → Nat → Except (List Char) Unit
  | [], _ => .ok ()
  | Json.obj members :: rest, idx =>
      if requiredFields.all (fun k => members.any (fun m => m.1 = k)) then
        validateItems rest (idx + 1)
      else
        .error ("Item ".data ++ Nat.toDigits 10 (idx + 1) ++ " missing required fields".data)
  | Json.null :: _, idx =>
      .error ("Item ".data ++ Nat.toDigits 10 (idx + 1) ++ " is not a JSON object".data)
  | Json.bool _ :: _, idx =>
      .error ("Item ".data ++ Nat.toDigits 10 (idx + 1) ++ " is not a JSON object".data)
  | Json.num _ :: _, idx =>
      .error ("Item ".data ++ Nat.toDigits 10 (idx + 1) ++ " is not a JSON object".data)
  | Json.str _ :: _, idx =>
      .error ("Item ".data ++ Nat.toDigits 10 (idx + 1) ++ " is not a JSON object".data)
  | Json.arr _ :: _, idx =>
      .error ("Item ".data ++ Nat.toDigits 10 (idx + 1) ++ " is not a JSON object".data)

/-- The count check and array requirement (lines 311-329): any failure is a
`SegmentedExtractionError` (`Except.error`) and no partial list is ever
returned. -/
def checkItemsValue (itemsVal : Json) (expected : Nat) : Except (List Char) (List Json) :=
  match itemsVal with
  | .arr items =>
    if items.length ≠ expected then
      .error ("Item count mismatch".data)
    else
      match validateItems items 0 with
      | .ok _ => .ok items
      | .error e => .error e
  | .null => .error ("items must be a JSON ARRAY".data)
  | .bool _ => .error ("items must be a JSON ARRAY".data)
  | .num _ => .error ("items must be a JSON ARRAY".data)
  | .str _ => .error ("items must be a JSON ARRAY".data)
  | .obj _ => .error ("items must be a JSON ARRAY".data)

/-- Unwrap the `items` member of the reply object and validate it
(lines 306-329). -/
def checkReplyObject (members : List (List Char × Json)) (expected : Nat) :
    Except (List Char) (List Json) :=
  match (members.find? (fun m => m.1 = "items".data)).map Prod.snd with
  | none => .error ("LLM response must be a JSON object with an items array".data)
  | some itemsVal => checkItemsValue itemsVal expected

/-- `extract_items_from_batch`: parse, unwrap, count-check, validate. -/
def extract_items_from_batch (content : Option Json) (expected : Nat) :
    Except (List Char) (List Json) :=
  match content with
  | none => .error ("Invalid JSON response from LLM for item extraction".data)
  | some (Json.obj members) => checkReplyObject members expected
  | some Json.null => .error ("LLM response must be a JSON object with an items array".data)
  | some (Json.bool _) => .error ("LLM response must be a JSON object with an items array".data)
  | some (Json.num _) => .error ("LLM response must be a JSON object with an items array".data)
  | some (Json.str _) => .error ("LLM response must be a JSON object with an items array".data)
  | some (Json.arr _) => .error ("LLM response must be a JSON object with an items array".data)

/-- An element acceptable to the per-item validation. -/
def itemWellFormed (it : Json) : Prop :=
  ∃ ms, it = Json.obj ms ∧ ∀ k ∈ requiredFields, ms.any (fun m => m.1 = k) = true

/-- The item loop accepts exactly the lists whose members are all
well-formed, at every starting index. -/
theorem validateItems_ok_iff : ∀ (items : List Json) (idx : Nat),
    validateItems items idx = .ok () ↔ ∀ it ∈ items, itemWellFormed it := by
  intro items
  induction items with
  | nil => intro idx; simp [validateItems]
  | cons it rest ih =>
    intro idx
    cases it with
    | obj members =>
      by_cases hall : requiredFields.all (fun k => members.any (fun m => m.1 = k)) = true
      · rw [validateItems, if_pos hall]
        constructor
        · intro h it2 hm
          rcases List.mem_cons.mp hm with rfl | hm2
          · exact ⟨members, rfl, fun k hk => List.all_eq_true.mp hall k hk⟩
          · exact (ih (idx + 1)).mp h it2 hm2
        · intro h
          exact (ih (idx + 1)).mpr (fun it2 hm2 => h it2 (List.mem_cons_of_mem _ hm2))
      · rw [validateItems, if_neg hall]
        constructor
        · intro h; cases h
        · intro h
          obtain ⟨ms, hms, hfields⟩ := h (Json.obj members) (List.mem_cons_self _ _)
          obtain rfl : members = ms := by cases hms; rfl
          exact absurd (List.all_eq_true.mpr hfields) hall
    | null =>
      refine ⟨fun h => Except.noConfusion h, fun h => ?_⟩
      obtain ⟨ms, hms, _⟩ := h Json.null (List.mem_cons_self _ _)
      exact Json.noConfusion hms
    | bool b =>
      refine ⟨fun h => Except.noConfusion h, fun h => ?_⟩
      obtain ⟨ms, hms, _⟩ := h (Json.bool b) (List.mem_cons_self _ _)
      exact Json.noConfusion hms
    | num n =>
      refine ⟨fun h => Except.noConfusion h, fun h => ?_⟩
      obtain ⟨ms, hms, _⟩ := h (Json.num n) (List.mem_cons_self _ _)
      exact Json.noConfusion hms
    | str s2 =>
      refine ⟨fun h => Except.noConfusion h, fun h => ?_⟩
      obtain ⟨ms, hms, _⟩ := h (Json.str s2) (List.mem_cons_self _ _)
      exact Json.noConfusion hms
    | arr xs =>
      refine ⟨fun h => Except.noConfusion h, fun h => ?_⟩
      obtain ⟨ms, hms, _⟩ := h (Json.arr xs) (List.mem_cons_self _ _)
      exact Json.noConfusion hms

/-- C9.  `extract_items_from_batch` returns an item list exactly when the
reply parsed to a JSON object whose `items` member is an array of length
`expected_count` all of whose elements are objects carrying every required
field — and then it returns that whole array, never a partial one; malformed
JSON (`none`), a non-object reply, a missing `items` member, a non-array
`items`, a wrong count, a non-object item or a missing field all yield
`SegmentedExtractionError` (`Except.error`). -/
theorem C9_batch_validation_iff (content : Option Json) (expected : Nat)
    (items : List Json) :
    extract_items_from_batch content expected = .ok items ↔
      ∃ members, content = some (Json.obj members) ∧
        (members.find? (fun m => m.1 = "items".data)).map Prod.snd
          = some (Json.arr items) ∧
        items.length = expected ∧
        ∀ it ∈ items, itemWellFormed it := by
  constructor
  · intro h
    match content with
    | none => exact Except.noConfusion h
    | some Json.null => exact Except.noConfusion h
    | some (Json.bool b) => exact Except.noConfusion h
    | some (Json.num n) => exact Except.noConfusion h
    | some (Json.str s2) => exact Except.noConfusion h
    | some (Json.arr xs) => exact Except.noConfusion h
    | some (Json.obj members) =>
      refine ⟨members, rfl, ?_⟩
      rw [extract_items_from_batch] at h
      match hfind : (members.find? (fun m => m.1 = "items".data)).map Prod.snd with
      | none =>
        rw [checkReplyObject, hfind] at h
        exact Except.noConfusion h
      | some Json.null =>
        rw [checkReplyObject, hfind] at h
        exact Except.noConfusion h
      | some (Json.bool b) =>
        rw [checkReplyObject, hfind] at h
        exact Except.noConfusion h
      | some (Json.num n) =>
        rw [checkReplyObject, hfind] at h
        exact Except.noConfusion h
      | some (Json.str s2) =>
        rw [checkReplyObject, hfind] at h
        exact Except.noConfusion h
      | some (Json.obj o2) =>
        rw [checkReplyObject, hfind] at h
        exact Except.noConfusion h
      | some (Json.arr items2) =>
        rw [checkReplyObject, hfind] at h
        have h2 : checkItemsValue (Json.arr items2) expected = Except.ok items := h
        rw [checkItemsValue] at h2
        by_cases hlen : items2.length ≠ expected
        · rw [if_pos hlen] at h2
          exact Except.noConfusion h2
        · rw [if_neg hlen] at h2
          match hval : validateItems items2 0 with
          | .error e =>
            rw [hval] at h2
            exact Except.noConfusion h2
          | .ok u =>
            rw [hval] at h2
            obtain rfl : items2 = items := by
              cases u
              simpa using h2
            exact ⟨hfind, by omega, (validateItems_ok_iff items2 0).mp hval⟩
  · intro h
    obtain ⟨members, rfl, hfind, hlen, hwf⟩ := h
    have hval : validateItems items 0 = .ok () :=
      (validateItems_ok_iff items 0).mpr hwf
    rw [extract_items_from_batch, checkReplyObject, hfind]
    show checkItemsValue (Json.arr items) expected = Except.ok items
    rw [checkItemsValue, if_neg (by omega : ¬ items.length ≠ expected), hval]

/-!
### Pub/sub event feed (`subscribe`, `unsubscribe`, `_emit_event`)
-/

/-- A `queue.Queue`: `maxsize = 0` — the `queue.Queue()` default — means
unbounded.  Items are the serialized job snapshots. -/
structure PyQueue where
  maxsize : Nat := 0
  items : List (List Char) := []
  deriving DecidableEq, Repr

/-- `Queue.put_nowait`: raises `queue.Full` (here `none`) iff the queue is
bounded and holds at least `maxsize` items. -/
def put_nowait (q : PyQueue) (event : List Char) : Option PyQueue :=
  if 0 < q.maxsize ∧ q.maxsize ≤ q.items.length then none
  else some { q with items := q.items ++ [event] }

/-- A fresh `queue.Queue()`: the default `maxsize = 0`, empty. -/
def newQueue : PyQueue :=
  { maxsize := 0, items := [] }

/-- `JobRegistry.subscribe` (lines 107-111): appends a fresh `queue.Queue()`
— unbounded — and returns it. -/
def subscribe (subs : List PyQueue) : List PyQueue × PyQueue :=
  (subs ++ [newQueue], newQueue)

/-- `JobRegistry.unsubscribe` (lines 113-116): removes the first matching
subscriber if present (`if q in self._subscribers: remove`). -/
def unsubscribe (subs : List PyQueue) (q : PyQueue) : List PyQueue :=
  subs.erase q

/-- `JobRegistry._emit_event` (lines 118-125): non-blocking put of the event
to every subscriber; a `queue.Full` subscriber keeps its old contents and the
event is dropped for it. -/
def _emit_event (subs : List PyQueue) (event : List Char) : List PyQueue :=
  subs.map (fun q =>
    match put_nowait q event with
    | some q2 => q2
    | none => q)

/-- Subscriber lists reachable through the registry operations.  (SSE
consumers only remove items from a queue, which cannot affect the `maxsize`
invariant tracked here, so consumption needs no step.) -/
inductive ReachableSubs : List PyQueue → Prop
  | init : ReachableSubs []
  | subscribeStep (subs : List PyQueue) (h : ReachableSubs subs) :
      ReachableSubs (subscribe subs).1
  | unsubscribeStep (subs : List PyQueue) (q : PyQueue) (h : ReachableSubs subs) :
      ReachableSubs (unsubscribe subs q)
  | emitStep (subs : List PyQueue) (event : List Char) (h : ReachableSubs subs) :
      ReachableSubs (_emit_event subs event)

/-- Every queue a reachable subscriber list holds is unbounded. -/
theorem reachable_unbounded {subs : List PyQueue} (h : ReachableSubs subs) :
    ∀ q ∈ subs, q.maxsize = 0 := by
  induction h with
  | init => intro q hq; cases hq
  | subscribeStep subs _ ih =>
    intro q hq
    rw [subscribe] at hq
    rcases List.mem_append.mp hq with hm | hm
    · exact ih q hm
    · obtain rfl : q = newQueue := List.mem_singleton.mp hm
      rfl
  | unsubscribeStep subs q0 _ ih =>
    intro q hq
    exact ih q (List.mem_of_mem_erase hq)
  | emitStep subs event _ ih =>
    intro q hq
    obtain ⟨q0, hq0, hmap⟩ := List.mem_map.mp hq
    have h0 : q0.maxsize = 0 := ih q0 hq0
    cases hput : put_nowait q0 event with
    | none =>
      rw [hput] at hmap
      exact hmap ▸ h0
    | some q2 =>
      rw [hput] at hmap
      have : q2 = { q0 with items := q0.items ++ [event] } := by
        unfold put_nowait at hput
        rw [if_neg (by omega)] at hput
        exact (Option.some_inj.mp hput).symm
      subst hmap
      rw [this, h0]

/-- C10.  Queues created by `subscribe` are unbounded (`maxsize = 0`), so on
every subscriber list reachable through the registry operations the
`queue.Full` branch of `_emit_event` is dead: every emitted event is appended
to every subscriber registered at emission time and none is dropped. -/
theorem C10_emit_never_drops {subs : List PyQueue} (h : ReachableSubs subs)
    (event : List Char) :
    (subscribe subs).2.maxsize = 0 ∧
    (∀ q ∈ subs, put_nowait q event = some { q with items := q.items ++ [event] }) ∧
    _emit_event subs event = subs.map (fun q => { q with items := q.items ++ [event] }) := by
  have hput : ∀ q ∈ subs, put_nowait q event = some { q with items := q.items ++ [event] } := by
    intro q hq
    have h0 := reachable_unbounded h q hq
    unfold put_nowait
    rw [if_neg (by omega)]
  refine ⟨rfl, hput, ?_⟩
  unfold _emit_event
  refine List.map_congr_left (fun q hq => ?_)
  rw [hput q hq]

/-- C10 witness: with two subscribers registered, emission enqueues the event
to both. -/
theorem C10_emit_never_drops_witness :
    ReachableSubs (subscribe (subscribe []).1).1 ∧
    _emit_event (subscribe (subscribe []).1).1 ("event".data)
      = (subscribe (subscribe []).1).1.map
          (fun q => { q with items := q.items ++ ["event".data] }) :=
  ⟨ReachableSubs.subscribeStep _ (ReachableSubs.subscribeStep _ ReachableSubs.init),
   (C10_emit_never_drops
     (ReachableSubs.subscribeStep _ (ReachableSubs.subscribeStep _ ReachableSubs.init))
     ("event".data)).2.2⟩

end InvoiceExtractor
